import Mathlib

/-!
Verification of the boat-vision repository: a client-side upload queue
(`workflow-uploader`, `src/unnamed/part_000`) driving a server route
`POST /api/process` (`src/boat-vision/src/app/page.tsx`) that runs an
analyze / generate / verify pipeline against an external model provider.

The definitions below are a shallow embedding of the two source files.
External services (the model provider, `JSON.parse`, the network) are
passed in as explicit parameters or environment records; everything the
repository itself computes is translated directly from the source.
-/

/-! ## Client data model (src/unnamed/part_000, lines 6-35) -/

/-- Status labels of a queue item, from the `ProcessingStatus` union type. -/
inductive ProcessingStatus
  | idle
  | ready
  | analyzing
  | generating
  | verifying
  | complete
  | error
deriving DecidableEq

/-- Optional analysis insights, from the `insights` field of `ProcessedResult`
and the server's `InsightBundle` type. -/
structure InsightBundle where
  boatOverview : Option String
  visualFocalPoints : Option String
  locationAdaptation : Option String
deriving DecidableEq

/-- Result attached to a completed queue item, from `ProcessedResult`. -/
structure ProcessedResult where
  finalImage : String
  prompt : String
  summary : String
  qualityReport : String
  insights : InsightBundle
deriving DecidableEq

/-- An uploaded browser `File`: we keep the two fields the repository
reads, `name` and `type` (the declared MIME type). -/
structure FileData where
  name : String
  type : String
deriving DecidableEq

/-- One entry of the upload queue, from the `QueueItem` type. -/
structure QueueItem where
  id : String
  file : FileData
  previewUrl : String
  status : ProcessingStatus
  logs : List String
  result : Option ProcessedResult
  error : Option String
deriving DecidableEq

/-- A partial update as passed to `updateQueueItem` (`Partial<QueueItem>`).
The orchestrator only ever updates `status`, `logs`, `result` and `error`,
so those are the fields modelled; `none` means the key is absent. -/
structure QueueItemUpdate where
  status : Option ProcessingStatus
  logs : Option (List String)
  result : Option ProcessedResult
  error : Option String
deriving DecidableEq

/-- Merge of one update into one item, from the body of `updateQueueItem`
(part_000 lines 125-136): spread `\x7b ...item, ...updates \x7d`, then log
entries are appended after the item's current logs instead of replacing
them. -/
def applyUpdate (item : QueueItem) (u : QueueItemUpdate) : QueueItem :=
  { id := item.id
    file := item.file
    previewUrl := item.previewUrl
    status := match u.status with
      | some s => s
      | none => item.status
    logs := match u.logs with
      | some ls => item.logs ++ ls
      | none => item.logs
    result := match u.result with
      | some r => some r
      | none => item.result
    error := match u.error with
      | some e => some e
      | none => item.error }

/-- Queue-store update, from `updateQueueItem` (part_000 lines 125-136):
a map over the queue replacing the item(s) whose id matches. -/
def updateQueueItem (i : String) (u : QueueItemUpdate) (q : List QueueItem) :
    List QueueItem :=
  q.map fun item => if item.id == i then applyUpdate item u else item

/-- Log append, from `appendLog` (part_000 lines 138-140): an update
carrying a single log entry. -/
def appendLog (i : String) (entry : String) (q : List QueueItem) :
    List QueueItem :=
  updateQueueItem i { status := none, logs := some [entry], result := none, error := none } q

/-- Item removal, from `removeItem` (part_000 lines 121-123). -/
def removeItem (i : String) (q : List QueueItem) : List QueueItem :=
  q.filter fun item => item.id != i

/-- MIME allow-list used by intake, from `handleFiles` (part_000 line 104). -/
def supportedTypes : List String :=
  ["image/jpeg", "image/png", "image/webp", "image/heic", "image/heif"]

/-- A fresh queue entry for one accepted file, from the mapping in
`handleFiles` (part_000 lines 107-113); the preview handle returned by
`URL.createObjectURL` is modelled as an opaque string derived from the
fresh id. -/
def mkQueueItem (i : String) (f : FileData) : QueueItem :=
  { id := i
    file := f
    previewUrl := "blob:" ++ i
    status := .ready
    logs := ["Queued for processing"]
    result := none
    error := none }

/-- Upload intake, from `handleFiles` (part_000 lines 100-119): keep only
files with a supported MIME type and append one ready item per kept file.
The fresh ids produced by `crypto.randomUUID` are supplied as a list. -/
def handleFiles (files : List FileData) (ids : List String) (q : List QueueItem) :
    List QueueItem :=
  q ++ (List.zip ids (files.filter fun f => supportedTypes.contains f.type)).map
    fun p => mkQueueItem p.1 p.2

/-! ## String helpers

The route builds its prompt with `Array.prototype.join(" ")` and the spec's
properties speak of phrases occurring inside the built strings, so we model
joining and substring occurrence directly. -/

/-- JavaScript's `Array.prototype.join` over strings. -/
def joinSep (sep : String) : List String → String
  | [] => ""
  | [x] => x
  | x :: y :: rest => x ++ sep ++ joinSep sep (y :: rest)

/-- Occurrence of `sub` inside `s` as a contiguous substring. -/
def StrContains (s sub : String) : Prop :=
  ∃ pre post : String, s = pre ++ sub ++ post

/-- Executable check that `sub` sits at the front of `s`. -/
def occursAtFront : List Char → List Char → Bool
  | [], _ => true
  | _ :: _, [] => false
  | a :: as, b :: bs => a == b && occursAtFront as bs

/-- Executable check that `sub` occurs somewhere inside `s`. -/
def occursIn (sub : List Char) : List Char → Bool
  | [] => sub.isEmpty
  | c :: t => occursAtFront sub (c :: t) || occursIn sub t

/-- Boolean form of substring occurrence, for concrete evaluation. -/
def strContainsB (s sub : String) : Bool :=
  occursIn sub.data s.data

/-- The opening curly bracket character. -/
def lbrace : Char := Char.ofNat 123

/-- The closing curly bracket character. -/
def rbrace : Char := Char.ofNat 125

/-! ## Server route: data model (page.tsx lines 19-42) -/

/-- Structured stage-1 assessment, from the server's `AnalysisPayload`
type (page.tsx lines 25-30). -/
structure AnalysisPayload where
  shouldReject : Bool
  rejectionReason : Option String
  summary : String
  insights : InsightBundle
deriving DecidableEq

/-- Lens lexicon, from `lensLexicon` (page.tsx lines 32-36). -/
def lensLexicon : String → Option String
  | "wide-immersive" =>
    some "ultra-wide 18mm lens, low horizon, cinematic atmosphere, immersive scale"
  | "action-zoom" =>
    some "high-speed telephoto capture, sweeping rooster tail, tack sharp hull detail"
  | "luxury-showcase" =>
    some "mid focal length lifestyle showcase, golden hour polish, upscale staging"
  | _ => none

/-- Shot-dynamic lexicon, from `dynamicDirectives` (page.tsx lines 38-42). -/
def dynamicDirectives : String → Option String
  | "running" =>
    some "capture hull-on-plane, spray arcs, strong diagonal energy, sense of motion"
  | "anchored" =>
    some "quiet anchorage, glassy reflections, relaxed lifestyle moment with tasteful props"
  | "harbor" =>
    some "arrival sequence past iconic marina landmarks, soft dusk lighting, warm hospitality"
  | _ => none

/-! ## Server route: stage 1 parsing (page.tsx lines 57-106) -/

/-- Index of the first occurrence of a character, modelling
`String.prototype.indexOf` with `none` for -1. -/
def firstIdxOf (c : Char) : List Char → Option Nat
  | [] => none
  | a :: t => if a == c then some 0 else (firstIdxOf c t).map (· + 1)

/-- Index of the last occurrence of a character, modelling
`String.prototype.lastIndexOf` with `none` for -1. -/
def lastIdxOf (c : Char) (l : List Char) : Option Nat :=
  (firstIdxOf c l.reverse).map fun i => l.length - 1 - i

/-- Substring selection of `cleanJson` (page.tsx lines 59-62): the slice
`text.slice(start, end + 1)` from the first opening bracket to the last
closing bracket, `none` when either bracket is absent. -/
def extractSpan (text : String) : Option String :=
  match firstIdxOf lbrace text.data, lastIdxOf rbrace text.data with
  | some s, some e => some (String.mk ((text.data.drop s).take (e + 1 - s)))
  | _, _ => none

/-- From `cleanJson` (page.tsx lines 57-66): extract the bracketed slice
and hand it to the platform JSON parser, which is passed in as `parse`
and returns `none` where `JSON.parse` would throw; any failure yields
`none`. -/
def cleanJson (parse : String → Option AnalysisPayload) (text : String) :
    Option AnalysisPayload :=
  match extractSpan text with
  | none => none
  | some sub => parse sub

/-- Fallback assessment built when parsing fails, from `analyzeSourceImage`
(page.tsx lines 98-104). -/
def defaultAnalysis : AnalysisPayload :=
  { shouldReject := false
    rejectionReason := none
    summary := "Unable to parse structured inspection; proceeding with default transformation."
    insights := { boatOverview := none, visualFocalPoints := none, locationAdaptation := none } }

/-- Stage 1 of the pipeline, from `analyzeSourceImage` (page.tsx lines
68-106). The remote model call is abstracted: `responseText` is the text
block extracted from the model's response (`extractMessageText res`). -/
def analyzeSourceImage (parse : String → Option AnalysisPayload)
    (responseText : String) : AnalysisPayload :=
  match cleanJson parse responseText with
  | none => defaultAnalysis
  | some p => p

/-- Modelled from the spec ("The model's free-text response is scanned for
the first balanced span and parsed as structured data"): claim C6's reading
of the extraction. From the first opening bracket, characters are taken
until the bracket depth returns to zero. -/
def balancedScan (acc : List Char) (depth : Nat) : List Char → Option (List Char)
  | [] => none
  | c :: t =>
    if c == lbrace then balancedScan (acc ++ [c]) (depth + 1) t
    else if c == rbrace then
      match depth with
      | 0 => none
      | 1 => some (acc ++ [c])
      | d + 2 => balancedScan (acc ++ [c]) (d + 1) t
    else balancedScan (acc ++ [c]) depth t

/-- Suffix of the text starting at its first opening bracket. -/
def fromFirstBrace : List Char → Option (List Char)
  | [] => none
  | c :: t => if c == lbrace then some (c :: t) else fromFirstBrace t

/-- Modelled from the spec: the first balanced bracket span of the text,
the substring claim C6 says `cleanJson` extracts. -/
def firstBalancedSpan (text : String) : Option String :=
  match fromFirstBrace text.data with
  | none => none
  | some l => (balancedScan [] 0 l).map String.mk

/-! ## Server route: the POST handler (page.tsx lines 155-225) -/

/-- Multipart form carried by a request (page.tsx lines 164-169); `none`
is an absent field. -/
structure FormFields where
  image : Option FileData
  location : Option String
  lens : Option String
  dynamic : Option String
  includeInteriors : Option String
deriving DecidableEq

/-- JavaScript's `x || d` applied to a nullable string field (page.tsx
lines 166-168): absent values and the empty string are both falsy. -/
def orDefault (v : Option String) (d : String) : String :=
  match v with
  | none => d
  | some s => if s = "" then d else s

/-- Remote calls a request issues, in order; the generate call carries the
prompt sent to the image model. -/
inductive ServerCall
  | analyze
  | generate (prompt : String)
  | verify
deriving DecidableEq

/-- Response bodies produced by the route. -/
inductive ResponseBody
  | errorBody (error : String) (reason : Option String)
  | successBody (generatedImage : String) (prompt : String) (summary : String)
      (qualityReport : String) (insights : InsightBundle)
deriving DecidableEq

/-- HTTP-level outcome of the route: a JSON response with its status code,
or an exception escaping the handler. -/
inductive RouteResponse
  | json (status : Nat) (body : ResponseBody)
  | thrown (message : String)
deriving DecidableEq

/-- Result of one request: the response plus the remote calls issued. -/
structure PostResult where
  response : RouteResponse
  calls : List ServerCall
deriving DecidableEq

/-- External-service environment of one request: whether the credential is
configured, the platform JSON parser, the stage-1 model's response text,
the image model's payload (`none` when it returns no data, page.tsx lines
124-127) and the stage-3 model's response text. -/
structure ServerEnv where
  hasApiKey : Bool
  parse : String → Option AnalysisPayload
  analysisText : String
  genImage : Option String
  verifyText : String

/-- Lens directive resolution (page.tsx line 190). -/
def lensDirectiveFor (lens : String) : String :=
  match lensLexicon lens with
  | some d => d
  | none => match lensLexicon "wide-immersive" with
    | some d => d
    | none => ""

/-- Shot-dynamic directive resolution (page.tsx line 191). -/
def motionDirectiveFor (dyn : String) : String :=
  match dynamicDirectives dyn with
  | some d => d
  | none => match dynamicDirectives "running" with
    | some d => d
    | none => ""

/-- Interior sentence of the reinforcement clause (page.tsx line 198). -/
def interiorSentence : String :=
  "Deliver a secondary interior vantage with luxurious wide-angle cabin framing."

/-- Exterior sentence of the reinforcement clause (page.tsx line 199). -/
def exteriorSentence : String :=
  "Focus solely on exterior hero shot."

/-- Reinforcement clause (page.tsx lines 193-200): fixed sentences joined
by spaces, varying only on the interior toggle. -/
def reinforcement (includeInteriors : Bool) : String :=
  joinSep " "
    ["No trailers, parking lots, or dealership backgrounds.",
     "Boat dominates the frame with authentic reflections and crisp wake physics.",
     "Match hull lines, colors, and trim accents from the source description.",
     if includeInteriors then interiorSentence else exteriorSentence]

/-- Generation prompt (page.tsx lines 202-212). -/
def buildPrompt (location lens dyn : String) (includeInteriors : Bool)
    (analysis : AnalysisPayload) : String :=
  joinSep " "
    ["Transform this vessel into a premium marketing render shot on the water.",
     "Locale: " ++ location ++ ".",
     "Lens profile: " ++ lensDirectiveFor lens ++ ".",
     "Shot dynamic: " ++ motionDirectiveFor dyn ++ ".",
     "Boat summary: " ++ (analysis.insights.boatOverview.getD "modern powerboat."),
     "Key focal points: " ++
       (analysis.insights.visualFocalPoints.getD "sleek hull, helm, passengers if present."),
     "Local cues: " ++
       (analysis.insights.locationAdaptation.getD "match regional water coloration and skyline."),
     reinforcement includeInteriors,
     "Hyper-realistic photographic lighting, zero distortion, glossy magazine quality."]

/-- The route handler `POST` (page.tsx lines 155-225): credential check,
form decoding with defaults, stage 1 with the rejection short-circuit,
prompt construction, generation (throwing when no image data comes back)
and verification. -/
def postHandler (env : ServerEnv) (form : FormFields) : PostResult :=
  if env.hasApiKey = false then
    { response := .json 500 (.errorBody "OPENAI_API_KEY missing" none), calls := [] }
  else
    let location := orDefault form.location "Local waterways"
    let lens := orDefault form.lens "wide-immersive"
    let dyn := orDefault form.dynamic "running"
    let includeInteriors := form.includeInteriors == some "true"
    match form.image with
    | none =>
      { response := .json 400 (.errorBody "Missing upload" none), calls := [] }
    | some _image =>
      let analysis := analyzeSourceImage env.parse env.analysisText
      if analysis.shouldReject then
        { response := .json 422 (.errorBody "Source image rejected" analysis.rejectionReason)
          calls := [.analyze] }
      else
        let prompt := buildPrompt location lens dyn includeInteriors analysis
        match env.genImage with
        | none =>
          { response := .thrown "Image generation returned no data."
            calls := [.analyze, .generate prompt] }
        | some b64 =>
          let finalImage := "data:image/png;base64," ++ b64
          { response := .json 200
              (.successBody finalImage prompt analysis.summary env.verifyText analysis.insights)
            calls := [.analyze, .generate prompt, .verify] }

/-! ## Client orchestrator (part_000 lines 80-213) -/

/-- Payload shape the client reads from an ok response (part_000 lines
172-178). -/
structure ProcessedPayload where
  summary : String
  prompt : String
  generatedImage : String
  qualityReport : String
  insights : InsightBundle
deriving DecidableEq

/-- Client-side view of one `fetch('/api/process')` round trip: an ok
response with its parsed payload, a non-ok response with its body text
(part_000 lines 165-170), or a thrown transport failure caught at
part_000 lines 195-199. -/
inductive FetchOutcome
  | success (payload : ProcessedPayload)
  | httpError (text : String)
  | networkError (message : String)
deriving DecidableEq

/-- Style parameters held in component state (part_000 lines 82-85). -/
structure StyleParams where
  location : String
  lens : String
  dynamic : String
  includeInteriors : Bool
deriving DecidableEq

/-- Form the client posts for one item (part_000 lines 151-156);
`String(includeInteriors)` stringifies the toggle. -/
def clientFormData (params : StyleParams) (f : FileData) : FormFields :=
  { image := some f
    location := some params.location
    lens := some params.lens
    dynamic := some params.dynamic
    includeInteriors := some (if params.includeInteriors then "true" else "false") }

/-- Result attached on success, from the update at part_000 lines 185-194. -/
def mkResult (p : ProcessedPayload) : ProcessedResult :=
  { finalImage := p.generatedImage
    prompt := p.prompt
    summary := p.summary
    qualityReport := p.qualityReport
    insights := p.insights }

/-- Per-item body of the orchestrator loop (part_000 lines 148-199) for a
non-complete item: the store updates issued before the request, then the
updates issued for the outcome of the round trip. -/
def stepItem (it : QueueItem) (outcome : FetchOutcome) (store : List QueueItem) :
    List QueueItem :=
  let s1 := appendLog it.id "🚀 Starting processing pipeline" store
  let s2 := updateQueueItem it.id
    { status := some .analyzing, logs := none, result := none, error := none } s1
  let s3 := appendLog it.id "🔍 Extracting vessel details and trailer remnants" s2
  match outcome with
  | .httpError t =>
    let s4 := appendLog it.id ("❌ Failed: " ++ t) s3
    updateQueueItem it.id
      { status := some .error, logs := none, result := none, error := some t } s4
  | .networkError m =>
    let s4 := appendLog it.id ("❌ " ++ m) s3
    updateQueueItem it.id
      { status := some .error, logs := none, result := none, error := some m } s4
  | .success p =>
    let s4 := updateQueueItem it.id
      { status := some .generating, logs := none, result := none, error := none } s3
    let s5 := appendLog it.id "🎨 Rendering cinematic water shot" s4
    let s6 := updateQueueItem it.id
      { status := some .verifying, logs := none, result := none, error := none } s5
    let s7 := appendLog it.id "🔁 Double-checking trailer removal and composition" s6
    updateQueueItem it.id
      { status := some .complete, logs := none, result := some (mkResult p), error := none } s7

/-- Net effect of `stepItem` on the matched item (proof-side summary of
the update chain). -/
def afterItem (outcome : FetchOutcome) (x : QueueItem) : QueueItem :=
  match outcome with
  | .httpError t =>
    { x with
      status := .error
      error := some t
      logs := x.logs ++
        ["🚀 Starting processing pipeline",
         "🔍 Extracting vessel details and trailer remnants",
         "❌ Failed: " ++ t] }
  | .networkError m =>
    { x with
      status := .error
      error := some m
      logs := x.logs ++
        ["🚀 Starting processing pipeline",
         "🔍 Extracting vessel details and trailer remnants",
         "❌ " ++ m] }
  | .success p =>
    { x with
      status := .complete
      result := some (mkResult p)
      logs := x.logs ++
        ["🚀 Starting processing pipeline",
         "🔍 Extracting vessel details and trailer remnants",
         "🎨 Rendering cinematic water shot",
         "🔁 Double-checking trailer removal and composition"] }

/-- Request/response events of a pass, in the order they are issued. -/
inductive PassEvent
  | request (i : String) (form : FormFields)
  | response (i : String) (outcome : FetchOutcome)
deriving DecidableEq

/-- The sequential loop of `processQueue` (part_000 lines 146-200) over the
queue snapshot captured by the callback: items already complete are
skipped, every other item is posted in order with the captured style
parameters, one round trip at a time; `fetchEnv` gives each item's
outcome. Returns the updated store and the request/response trace. -/
def runPass (fetchEnv : String → FetchOutcome) (params : StyleParams) :
    List QueueItem → List QueueItem → List QueueItem × List PassEvent
  | [], store => (store, [])
  | it :: rest, store =>
    if it.status == .complete then runPass fetchEnv params rest store
    else
      let form := clientFormData params it.file
      let outcome := fetchEnv it.id
      let store2 := stepItem it outcome store
      let next := runPass fetchEnv params rest store2
      (next.1, .request it.id form :: .response it.id outcome :: next.2)

/-- Eligibility check, from `readyForProcessing` (part_000 lines 89-92). -/
def readyForProcessing (q : List QueueItem) : Bool :=
  decide (0 < q.length) && q.any fun item => item.status == .idle || item.status == .ready

/-- Component state the orchestrator reads and writes. -/
structure AppState where
  queue : List QueueItem
  isProcessing : Bool
  params : StyleParams

/-- Orchestrator entry point, from `processQueue` (part_000 lines 142-213):
refuse to start when nothing is eligible or a pass is in flight, otherwise
run the sequential pass over the captured snapshot with the style
parameters captured in the callback's closure, then clear the flag. -/
def processQueue (fetchEnv : String → FetchOutcome) (st : AppState) :
    AppState × List PassEvent :=
  if !readyForProcessing st.queue || st.isProcessing then (st, [])
  else
    let res := runPass fetchEnv st.params st.queue st.queue
    ({ queue := res.1, isProcessing := false, params := st.params }, res.2)

/-- Modelled from the spec ("Read at the moment each item begins
processing"): claim C8's reading of the pass, where the style parameters
are re-read from a time-varying source each time an item begins
processing; `k` counts the items begun so far. Only the request trace
matters to the claim. -/
def runPassPerItemRead (fetchEnv : String → FetchOutcome)
    (paramsAt : Nat → StyleParams) (k : Nat) : List QueueItem → List PassEvent
  | [] => []
  | it :: rest =>
    if it.status == .complete then runPassPerItemRead fetchEnv paramsAt k rest
    else
      PassEvent.request it.id (clientFormData (paramsAt k) it.file) ::
        PassEvent.response it.id (fetchEnv it.id) ::
          runPassPerItemRead fetchEnv paramsAt (k + 1) rest

/-- Serialized body text of an error response as the client's
`response.text()` reads it: `NextResponse.json` emits the object with the
`error` key and, when the reason is present, the `reason` key. -/
def errorText (e : String) (r : Option String) : String :=
  match r with
  | none => "\x7b\"error\":\"" ++ e ++ "\"\x7d"
  | some s => "\x7b\"error\":\"" ++ e ++ "\",\"reason\":\"" ++ s ++ "\"\x7d"

/-- Client-side reading of a route response (part_000 lines 160-178): this
route's ok responses are exactly the success bodies, whose payload the
client parses; a non-ok response yields its body text; a failure thrown
out of the handler surfaces as a non-ok response carrying the failure
message. -/
def fetchOutcomeOf : RouteResponse → FetchOutcome
  | .json _ (.successBody g p s q ins) =>
    .success { summary := s, prompt := p, generatedImage := g, qualityReport := q, insights := ins }
  | .json _ (.errorBody e r) => .httpError (errorText e r)
  | .thrown m => .httpError m

/-- First item of the store holding a given id, from the id matching in
`updateQueueItem`. -/
def getById (q : List QueueItem) (i : String) : Option QueueItem :=
  q.find? fun it => it.id == i

/-- Store invariant carried through every operation: ids are pairwise
distinct, and a result is attached exactly on the complete items. -/
def queueInvariant (q : List QueueItem) : Prop :=
  (q.map QueueItem.id).Nodup ∧ ∀ it ∈ q, (it.result.isSome ↔ it.status = .complete)

/-- Queue stores reachable through the component's operations: the empty
initial store, upload intake with fresh ids (`crypto.randomUUID`), item
removal, and an orchestrator pass. -/
inductive Reachable : List QueueItem → Prop
  | init : Reachable []
  | intake (q : List QueueItem) (files : List FileData) (ids : List String) :
      Reachable q → ids.Nodup → (∀ i ∈ ids, ∀ it ∈ q, it.id ≠ i) →
      Reachable (handleFiles files ids q)
  | remove (q : List QueueItem) (i : String) :
      Reachable q → Reachable (removeItem i q)
  | pass (q : List QueueItem) (fetchEnv : String → FetchOutcome) (b : Bool)
      (params : StyleParams) :
      Reachable q →
      Reachable (processQueue fetchEnv { queue := q, isProcessing := b, params := params }).1.queue

/-! ## Concrete sample data used to instantiate theorems -/

/-- Sample item used to instantiate queue-level theorems. -/
def sampleItem : QueueItem :=
  { id := "a1"
    file := { name := "boat.jpg", type := "image/jpeg" }
    previewUrl := "blob:a1"
    status := .ready
    logs := ["Queued for processing"]
    result := none
    error := none }

/-- Second sample item, with a distinct id. -/
def sampleItem2 : QueueItem :=
  { id := "a2"
    file := { name := "boat2.png", type := "image/png" }
    previewUrl := "blob:a2"
    status := .ready
    logs := ["Queued for processing"]
    result := none
    error := none }

/-- Sample update carrying a status change and one log entry. -/
def sampleUpdate : QueueItemUpdate :=
  { status := some .analyzing
    logs := some ["started"]
    result := none
    error := none }

/-- Sample style parameters. -/
def sampleParams : StyleParams :=
  { location := "Charleston Harbor, SC"
    lens := "action-zoom"
    dynamic := "harbor"
    includeInteriors := false }

/-- Second sample style parameters, differing in the locale. -/
def sampleParams2 : StyleParams :=
  { location := "Lake Union, WA"
    lens := "action-zoom"
    dynamic := "harbor"
    includeInteriors := false }

/-- Sample fetch environment failing every round trip. -/
def sampleFetchEnv : String → FetchOutcome :=
  fun _ => .networkError "Unknown processing error"

/-- Sample server environment: credential present, a parser accepting
nothing, a bracket-free analysis text, image data present. -/
def sampleServerEnv : ServerEnv :=
  { hasApiKey := true
    parse := fun _ => none
    analysisText := "no structured data here"
    genImage := some "QUJD"
    verifyText := "Looks clean." }

/-- Sample rejecting analysis parser: accepts exactly the sample slice. -/
def rejectingParse : String → Option AnalysisPayload :=
  fun s =>
    if s = "\x7b\"shouldReject\":true\x7d" then
      some { shouldReject := true
             rejectionReason := some "trailer visible"
             summary := "Trailer dominates the frame."
             insights := { boatOverview := none, visualFocalPoints := none,
                           locationAdaptation := none } }
    else none

/-- Sample server environment whose stage-1 analysis rejects the image. -/
def rejectingServerEnv : ServerEnv :=
  { hasApiKey := true
    parse := rejectingParse
    analysisText := "verdict: \x7b\"shouldReject\":true\x7d"
    genImage := some "QUJD"
    verifyText := "unused" }

/-- Sample form with every optional field supplied. -/
def sampleForm : FormFields :=
  { image := some { name := "boat.jpg", type := "image/jpeg" }
    location := some "Charleston Harbor, SC"
    lens := some "action-zoom"
    dynamic := some "harbor"
    includeInteriors := some "true" }

/-- Sample form with only the image supplied. -/
def bareForm : FormFields :=
  { image := some { name := "boat.jpg", type := "image/jpeg" }
    location := none
    lens := none
    dynamic := none
    includeInteriors := none }

/-! ## Supporting lemmas and claim theorems -/
/-- The merge never changes an item's id. -/
theorem applyUpdate_id (item : QueueItem) (u : QueueItemUpdate) :
    (applyUpdate item u).id = item.id := rfl

/-- The merge extends an item's logs by some suffix. -/
theorem applyUpdate_logs (item : QueueItem) (u : QueueItemUpdate) :
    ∃ t, (applyUpdate item u).logs = item.logs ++ t := by
  cases h : u.logs with
  | none => exact ⟨[], by simp [applyUpdate, h]⟩
  | some ls => exact ⟨ls, by simp [applyUpdate, h]⟩

/-- An update keeps the queue's length. -/
theorem updateQueueItem_length (i : String) (u : QueueItemUpdate) (q : List QueueItem) :
    (updateQueueItem i u q).length = q.length := by
  simp [updateQueueItem]

/-- Pointwise description of a queue-store update. -/
theorem updateQueueItem_get (i : String) (u : QueueItemUpdate) (q : List QueueItem)
    (j : Nat) (h : j < q.length) (h2 : j < (updateQueueItem i u q).length) :
    (updateQueueItem i u q).get ⟨j, h2⟩ =
      (if (q.get ⟨j, h⟩).id == i then applyUpdate (q.get ⟨j, h⟩) u else q.get ⟨j, h⟩) := by
  simp [updateQueueItem, List.get_eq_getElem]

/-- C9: every queue-store update preserves each item's existing log list as
a prefix — an update carrying log entries appends them after the current
logs, `appendLog` appends exactly its entry, removal only drops whole items
(every surviving item is an unchanged item of the old queue), and intake
only appends new items after the existing ones. -/
theorem c9_logs_append_only :
    (∀ (q : List QueueItem) (i : String) (u : QueueItemUpdate),
        (updateQueueItem i u q).length = q.length
        ∧ ∀ (j : Nat) (h : j < q.length) (h2 : j < (updateQueueItem i u q).length),
            ∃ t, ((updateQueueItem i u q).get ⟨j, h2⟩).logs = (q.get ⟨j, h⟩).logs ++ t)
    ∧ (∀ (item : QueueItem) (u : QueueItemUpdate) (ls : List String),
        u.logs = some ls → (applyUpdate item u).logs = item.logs ++ ls)
    ∧ (∀ (q : List QueueItem) (i entry : String) (j : Nat)
        (h : j < q.length) (h2 : j < (appendLog i entry q).length),
        ((appendLog i entry q).get ⟨j, h2⟩).logs = (q.get ⟨j, h⟩).logs
        ∨ ((appendLog i entry q).get ⟨j, h2⟩).logs = (q.get ⟨j, h⟩).logs ++ [entry])
    ∧ (∀ (q : List QueueItem) (i : String) (it : QueueItem), it ∈ removeItem i q → it ∈ q)
    ∧ (∀ (files : List FileData) (ids : List String) (q : List QueueItem),
        ∃ fresh, handleFiles files ids q = q ++ fresh) := by
  refine ⟨?_, ?_, ?_, ?_, ?_⟩
  · intro q i u
    refine ⟨updateQueueItem_length i u q, ?_⟩
    intro j h h2
    rw [updateQueueItem_get i u q j h h2]
    by_cases hc : (q.get ⟨j, h⟩).id = i
    · rw [if_pos (by simpa using hc)]
      exact applyUpdate_logs _ u
    · rw [if_neg (by simpa using hc)]
      exact ⟨[], by simp⟩
  · intro item u ls hls
    simp [applyUpdate, hls]
  · intro q i entry j h h2
    simp only [appendLog] at h2 ⊢
    rw [updateQueueItem_get i _ q j h h2]
    by_cases hc : (q.get ⟨j, h⟩).id = i
    · right
      rw [if_pos (by simpa using hc)]
      simp [applyUpdate]
    · left
      rw [if_neg (by simpa using hc)]
  · intro q i it hmem
    exact List.mem_of_mem_filter hmem
  · intro files ids q
    exact ⟨_, rfl⟩

theorem c9_logs_append_only_witness :
    ∃ t, ((updateQueueItem "a1" sampleUpdate [sampleItem]).get ⟨0, by decide⟩).logs
      = ([sampleItem].get ⟨0, by decide⟩).logs ++ t :=
  (c9_logs_append_only.1 [sampleItem] "a1" sampleUpdate).2 0 (by decide) (by decide)

/-- Character data of an appended string. -/
theorem strData_append (a b : String) : (a ++ b).data = a.data ++ b.data := rfl

/-- A string contains whatever sits between two concatenands. -/
theorem strContains_mid (pre x post : String) : StrContains (pre ++ x ++ post) x :=
  ⟨pre, post, rfl⟩

/-- Every string contains the empty string. -/
theorem strContains_empty (s : String) : StrContains s "" :=
  ⟨s, "", by apply String.ext; simp [strData_append]⟩

/-- Substring occurrence is transitive. -/
theorem strContains_trans {s t u : String} (h1 : StrContains s t)
    (h2 : StrContains t u) : StrContains s u := by
  obtain ⟨a, b, rfl⟩ := h1
  obtain ⟨c, d, hcd⟩ := h2
  exact ⟨a ++ c, d ++ b, by apply String.ext; simp [strData_append, hcd]⟩

/-- A joined list contains each of its elements. -/
theorem joinSep_contains (sep x : String) : ∀ xs : List String, x ∈ xs →
    StrContains (joinSep sep xs) x := by
  intro xs
  induction xs with
  | nil =>
    intro h
    simp at h
  | cons y ys ih =>
    intro h
    cases ys with
    | nil =>
      rw [List.mem_singleton.mp h]
      exact ⟨"", "", by apply String.ext; simp [joinSep, strData_append]⟩
    | cons z rest =>
      rcases List.mem_cons.mp h with heq | htail
      · rw [heq]
        exact ⟨"", sep ++ joinSep sep (z :: rest),
          by apply String.ext; simp [joinSep, strData_append]⟩
      · obtain ⟨pre, post, hp⟩ := ih htail
        exact ⟨y ++ sep ++ pre, post,
          by apply String.ext; simp [joinSep, strData_append, hp]⟩

/-- C5: when the stage-1 response text yields no parseable object,
`analyzeSourceImage` returns the non-rejecting default analysis — reject
flag clear, the default summary, an empty insights bundle — instead of
failing, and such a request still reaches the generation call. -/
theorem c5_parse_failure_defaults :
    (∀ (parse : String → Option AnalysisPayload) (text : String),
        cleanJson parse text = none →
        analyzeSourceImage parse text = defaultAnalysis
        ∧ (analyzeSourceImage parse text).shouldReject = false
        ∧ (analyzeSourceImage parse text).summary =
            "Unable to parse structured inspection; proceeding with default transformation."
        ∧ (analyzeSourceImage parse text).insights =
            { boatOverview := none, visualFocalPoints := none, locationAdaptation := none })
    ∧ (∀ (env : ServerEnv) (form : FormFields) (f : FileData),
        env.hasApiKey = true → form.image = some f →
        cleanJson env.parse env.analysisText = none →
        ∃ p, ServerCall.generate p ∈ (postHandler env form).calls) := by
  constructor
  · intro parse text h
    refine ⟨?_, ?_, ?_, ?_⟩ <;> simp [analyzeSourceImage, h, defaultAnalysis]
  · intro env form f hk himg h
    cases hg : env.genImage <;>
      simp [postHandler, hk, himg, analyzeSourceImage, h, hg, defaultAnalysis]

theorem c5_parse_failure_defaults_witness :
    cleanJson sampleServerEnv.parse sampleServerEnv.analysisText = none
    ∧ analyzeSourceImage sampleServerEnv.parse sampleServerEnv.analysisText = defaultAnalysis
    ∧ ∃ p, ServerCall.generate p ∈ (postHandler sampleServerEnv bareForm).calls :=
  ⟨by rfl,
   (c5_parse_failure_defaults.1 sampleServerEnv.parse sampleServerEnv.analysisText (by rfl)).1,
   c5_parse_failure_defaults.2 sampleServerEnv bareForm
     { name := "boat.jpg", type := "image/jpeg" } (by rfl) (by rfl) (by rfl)⟩

/-- Index of the first occurrence in a list avoiding the character up to
that point. -/
theorem firstIdxOf_append_not (c : Char) (a r : List Char) (ha : c ∉ a) :
    firstIdxOf c (a ++ c :: r) = some a.length := by
  induction a with
  | nil => simp [firstIdxOf]
  | cons x xs ih =>
    have hx : (x == c) = false := by
      simp only [List.mem_cons, not_or] at ha
      exact beq_eq_false_iff_ne.mpr fun h => ha.1 h.symm
    have ha' : c ∉ xs := by
      simp only [List.mem_cons, not_or] at ha
      exact ha.2
    simp [firstIdxOf, hx, ih ha']

/-- C6 counterexample: on the text consisting of two bracket pairs, the
slice `cleanJson` takes runs from the first opening bracket to the LAST
closing bracket, which is not the first balanced span. -/
theorem c6_extraction_counterexample :
    extractSpan "\x7b\x7d \x7b\x7d" = some "\x7b\x7d \x7b\x7d"
    ∧ firstBalancedSpan "\x7b\x7d \x7b\x7d" = some "\x7b\x7d"
    ∧ extractSpan "\x7b\x7d \x7b\x7d" ≠ firstBalancedSpan "\x7b\x7d \x7b\x7d" := by
  refine ⟨?_, ?_, ?_⟩ <;> decide

/-- C6 amended: the substring `cleanJson` extracts and parses runs from the
text's first opening bracket to its last closing bracket, inclusive. -/
theorem c6_first_to_last_span (a mid d : List Char)
    (ha : lbrace ∉ a) (hd : rbrace ∉ d) :
    extractSpan (String.mk (a ++ lbrace :: (mid ++ [rbrace] ++ d)))
      = some (String.mk (lbrace :: (mid ++ [rbrace]))) := by
  set L : List Char := a ++ lbrace :: (mid ++ [rbrace] ++ d) with hL
  have h1 : firstIdxOf lbrace L = some a.length :=
    firstIdxOf_append_not lbrace a (mid ++ [rbrace] ++ d) ha
  have h2 : L.reverse = d.reverse ++ rbrace :: (mid.reverse ++ [lbrace] ++ a.reverse) := by
    simp [hL, List.append_assoc]
  have h3 : firstIdxOf rbrace L.reverse = some d.length := by
    rw [h2]
    have := firstIdxOf_append_not rbrace d.reverse
      (mid.reverse ++ [lbrace] ++ a.reverse) (by simpa using hd)
    simpa using this
  have hlen : L.length = a.length + (mid.length + 1 + d.length) + 1 := by
    simp [hL]
    omega
  have h4 : lastIdxOf rbrace L = some (a.length + mid.length + 1) := by
    rw [lastIdxOf, h3]
    simp [hlen]
    omega
  show extractSpan (String.mk L) = _
  rw [extractSpan]
  have hdata : (String.mk L).data = L := rfl
  rw [hdata, h1, h4]
  dsimp only
  have hdrop : L.drop a.length = lbrace :: (mid ++ [rbrace] ++ d) := by
    rw [hL]
    exact List.drop_left a _
  have htake : (lbrace :: (mid ++ [rbrace] ++ d)).take (a.length + mid.length + 1 + 1 - a.length)
      = lbrace :: (mid ++ [rbrace]) := by
    have harith : a.length + mid.length + 1 + 1 - a.length = mid.length + 2 := by omega
    rw [harith]
    simp [List.take_append_eq_append_take]
  rw [hdrop, htake]

theorem c6_first_to_last_span_witness :
    lbrace ∉ "note ".data
    ∧ rbrace ∉ " tail".data
    ∧ extractSpan (String.mk ("note ".data ++ lbrace :: ("\"a\":1".data ++ [rbrace] ++ " tail".data)))
        = some (String.mk (lbrace :: ("\"a\":1".data ++ [rbrace]))) :=
  ⟨by decide, by decide,
   c6_first_to_last_span "note ".data "\"a\":1".data " tail".data (by decide) (by decide)⟩

/-- The net item transformation keeps the id. -/
theorem afterItem_id (o : FetchOutcome) (x : QueueItem) : (afterItem o x).id = x.id := by
  cases o <;> rfl

/-- The per-item step is one map over the store, touching exactly the
items whose id matches. -/
theorem stepItem_eq_map (it : QueueItem) (o : FetchOutcome) (store : List QueueItem) :
    stepItem it o store = store.map fun x => if x.id == it.id then afterItem o x else x := by
  cases o with
  | httpError t =>
    simp only [stepItem, appendLog, updateQueueItem, List.map_map]
    apply List.map_congr_left
    intro x _
    by_cases h : (x.id == it.id) = true
    · simp [Function.comp, h, applyUpdate, afterItem]
    · simp [Function.comp, h, applyUpdate, afterItem]
  | networkError m =>
    simp only [stepItem, appendLog, updateQueueItem, List.map_map]
    apply List.map_congr_left
    intro x _
    by_cases h : (x.id == it.id) = true
    · simp [Function.comp, h, applyUpdate, afterItem]
    · simp [Function.comp, h, applyUpdate, afterItem]
  | success p =>
    simp only [stepItem, appendLog, updateQueueItem, List.map_map]
    apply List.map_congr_left
    intro x _
    by_cases h : (x.id == it.id) = true
    · simp [Function.comp, h, applyUpdate, afterItem]
    · simp [Function.comp, h, applyUpdate, afterItem]

/-- The prompt contains its locale sentence. -/
theorem buildPrompt_contains_locale_piece (location lens dyn : String) (b : Bool)
    (analysis : AnalysisPayload) :
    StrContains (buildPrompt location lens dyn b analysis) ("Locale: " ++ location ++ ".") := by
  rw [buildPrompt]
  exact joinSep_contains _ _ _ (by simp)

/-- The prompt contains its lens-profile sentence. -/
theorem buildPrompt_contains_lens_piece (location lens dyn : String) (b : Bool)
    (analysis : AnalysisPayload) :
    StrContains (buildPrompt location lens dyn b analysis)
      ("Lens profile: " ++ lensDirectiveFor lens ++ ".") := by
  rw [buildPrompt]
  exact joinSep_contains _ _ _ (by simp)

/-- The prompt contains its shot-dynamic sentence. -/
theorem buildPrompt_contains_dyn_piece (location lens dyn : String) (b : Bool)
    (analysis : AnalysisPayload) :
    StrContains (buildPrompt location lens dyn b analysis)
      ("Shot dynamic: " ++ motionDirectiveFor dyn ++ ".") := by
  rw [buildPrompt]
  exact joinSep_contains _ _ _ (by simp)

/-- The prompt contains its reinforcement clause. -/
theorem buildPrompt_contains_reinforcement (location lens dyn : String) (b : Bool)
    (analysis : AnalysisPayload) :
    StrContains (buildPrompt location lens dyn b analysis) (reinforcement b) := by
  rw [buildPrompt]
  exact joinSep_contains _ _ _ (by simp)

/-- The prompt contains the resolved lens directive itself. -/
theorem buildPrompt_contains_lens (location lens dyn : String) (b : Bool)
    (analysis : AnalysisPayload) :
    StrContains (buildPrompt location lens dyn b analysis) (lensDirectiveFor lens) :=
  strContains_trans (buildPrompt_contains_lens_piece location lens dyn b analysis)
    (strContains_mid "Lens profile: " _ ".")

/-- The prompt contains the resolved shot-dynamic directive itself. -/
theorem buildPrompt_contains_dyn (location lens dyn : String) (b : Bool)
    (analysis : AnalysisPayload) :
    StrContains (buildPrompt location lens dyn b analysis) (motionDirectiveFor dyn) :=
  strContains_trans (buildPrompt_contains_dyn_piece location lens dyn b analysis)
    (strContains_mid "Shot dynamic: " _ ".")

/-- The prompt contains the locale string itself. -/
theorem buildPrompt_contains_location (location lens dyn : String) (b : Bool)
    (analysis : AnalysisPayload) :
    StrContains (buildPrompt location lens dyn b analysis) location :=
  strContains_trans (buildPrompt_contains_locale_piece location lens dyn b analysis)
    (strContains_mid "Locale: " _ ".")

/-- Any generate call a request issues carries exactly the prompt built
from the decoded form fields and the stage-1 analysis. -/
theorem postHandler_generate_prompt (env : ServerEnv) (form : FormFields) (p : String)
    (hmem : ServerCall.generate p ∈ (postHandler env form).calls) :
    p = buildPrompt (orDefault form.location "Local waterways")
          (orDefault form.lens "wide-immersive") (orDefault form.dynamic "running")
          (form.includeInteriors == some "true")
          (analyzeSourceImage env.parse env.analysisText) := by
  by_cases hk : env.hasApiKey = false
  · simp [postHandler, hk] at hmem
  · cases himg : form.image with
    | none => simp [postHandler, hk, himg] at hmem
    | some f =>
      cases hrej : (analyzeSourceImage env.parse env.analysisText).shouldReject with
      | true => simp [postHandler, hk, himg, hrej] at hmem
      | false =>
        cases hg : env.genImage with
        | none =>
          simp [postHandler, hk, himg, hrej, hg] at hmem
          exact hmem
        | some b64 =>
          simp [postHandler, hk, himg, hrej, hg] at hmem
          exact hmem

/-- C1: with the credential present and an image uploaded, a stage-1
analysis whose reject flag is set makes the route answer 422 carrying the
analysis's rejection reason after the analyze call alone — no generate or
verify call is issued; on the client, an item whose round trip came back
non-ok transitions to status error carrying the response text, and the
text of such a rejection response contains the reason. -/
theorem c1_rejection_short_circuit :
    (∀ (env : ServerEnv) (form : FormFields) (f : FileData),
        env.hasApiKey = true → form.image = some f →
        (analyzeSourceImage env.parse env.analysisText).shouldReject = true →
        postHandler env form =
          { response := RouteResponse.json 422 (.errorBody "Source image rejected"
              (analyzeSourceImage env.parse env.analysisText).rejectionReason)
            calls := [ServerCall.analyze] })
    ∧ (∀ (store : List QueueItem) (it : QueueItem) (t : String),
        stepItem it (.httpError t) store =
          store.map fun x => if x.id == it.id then afterItem (.httpError t) x else x)
    ∧ (∀ (t : String) (x : QueueItem),
        (afterItem (.httpError t) x).status = .error
        ∧ (afterItem (.httpError t) x).error = some t)
    ∧ (∀ (e r : String),
        fetchOutcomeOf (RouteResponse.json 422 (.errorBody e (some r))) =
          FetchOutcome.httpError (errorText e (some r))
        ∧ StrContains (errorText e (some r)) r) := by
  refine ⟨?_, ?_, ?_, ?_⟩
  · intro env form f hk himg hrej
    simp [postHandler, hk, himg, hrej]
  · intro store it t
    exact stepItem_eq_map it (.httpError t) store
  · intro t x
    exact ⟨rfl, rfl⟩
  · intro e r
    refine ⟨rfl, ?_⟩
    refine ⟨"\x7b\"error\":\"" ++ e ++ "\",\"reason\":\"", "\"\x7d", ?_⟩
    apply String.ext
    simp [errorText, strData_append]

theorem c1_rejection_short_circuit_witness :
    postHandler rejectingServerEnv sampleForm =
      { response := RouteResponse.json 422 (ResponseBody.errorBody "Source image rejected"
          (analyzeSourceImage rejectingServerEnv.parse rejectingServerEnv.analysisText).rejectionReason)
        calls := [ServerCall.analyze] }
    ∧ (analyzeSourceImage rejectingServerEnv.parse rejectingServerEnv.analysisText).rejectionReason
        = some "trailer visible"
    ∧ StrContains (errorText "Source image rejected" (some "trailer visible")) "trailer visible" :=
  ⟨c1_rejection_short_circuit.1 rejectingServerEnv sampleForm
      { name := "boat.jpg", type := "image/jpeg" } (by rfl) (by rfl) (by decide),
   by decide,
   (c1_rejection_short_circuit.2.2.2 "Source image rejected" "trailer visible").2⟩

/-- C7: the route answers 500 before issuing any remote call when the
credential is absent, 400 when no image file is uploaded, and fills in the
documented defaults for absent form fields — locale "Local waterways",
lens wide-immersive, dynamic running — in the prompt it generates with. -/
theorem c7_route_errors_and_defaults :
    (∀ (env : ServerEnv) (form : FormFields), env.hasApiKey = false →
        postHandler env form =
          { response := RouteResponse.json 500 (.errorBody "OPENAI_API_KEY missing" none)
            calls := [] })
    ∧ (∀ (env : ServerEnv) (form : FormFields), env.hasApiKey = true → form.image = none →
        postHandler env form =
          { response := RouteResponse.json 400 (.errorBody "Missing upload" none)
            calls := [] })
    ∧ (∀ (env : ServerEnv) (f : FileData) (p : String),
        ServerCall.generate p ∈ (postHandler env
          { image := some f, location := none, lens := none, dynamic := none,
            includeInteriors := none }).calls →
        StrContains p "Locale: Local waterways."
        ∧ StrContains p "ultra-wide 18mm lens, low horizon, cinematic atmosphere, immersive scale"
        ∧ StrContains p "capture hull-on-plane, spray arcs, strong diagonal energy, sense of motion") := by
  refine ⟨?_, ?_, ?_⟩
  · intro env form hk
    simp [postHandler, hk]
  · intro env form hk himg
    simp [postHandler, hk, himg]
  · intro env f p hmem
    rw [postHandler_generate_prompt env _ p hmem]
    refine ⟨?_, ?_, ?_⟩
    · have h := buildPrompt_contains_locale_piece (orDefault none "Local waterways")
        (orDefault none "wide-immersive") (orDefault none "running")
        ((none : Option String) == some "true") (analyzeSourceImage env.parse env.analysisText)
      have heq : ("Locale: " ++ orDefault none "Local waterways" ++ "." : String)
          = "Locale: Local waterways." := by decide
      rwa [heq] at h
    · have h := buildPrompt_contains_lens (orDefault none "Local waterways")
        (orDefault none "wide-immersive") (orDefault none "running")
        ((none : Option String) == some "true") (analyzeSourceImage env.parse env.analysisText)
      have heq : lensDirectiveFor (orDefault none "wide-immersive")
          = "ultra-wide 18mm lens, low horizon, cinematic atmosphere, immersive scale" := by decide
      rwa [heq] at h
    · have h := buildPrompt_contains_dyn (orDefault none "Local waterways")
        (orDefault none "wide-immersive") (orDefault none "running")
        ((none : Option String) == some "true") (analyzeSourceImage env.parse env.analysisText)
      have heq : motionDirectiveFor (orDefault none "running")
          = "capture hull-on-plane, spray arcs, strong diagonal energy, sense of motion" := by decide
      rwa [heq] at h

set_option maxRecDepth 8192 in
theorem c7_route_errors_and_defaults_witness :
    (postHandler
        { hasApiKey := false, parse := fun _ => none, analysisText := "",
          genImage := none, verifyText := "" } bareForm =
      { response := RouteResponse.json 500 (ResponseBody.errorBody "OPENAI_API_KEY missing" none)
        calls := [] })
    ∧ (postHandler sampleServerEnv
        { image := none, location := none, lens := none, dynamic := none,
          includeInteriors := none } =
      { response := RouteResponse.json 400 (ResponseBody.errorBody "Missing upload" none)
        calls := [] })
    ∧ (StrContains (buildPrompt "Local waterways" "wide-immersive" "running" false defaultAnalysis)
        "Locale: Local waterways.") :=
  ⟨c7_route_errors_and_defaults.1
      { hasApiKey := false, parse := fun _ => none, analysisText := "",
        genImage := none, verifyText := "" } bareForm (by rfl),
   c7_route_errors_and_defaults.2.1 sampleServerEnv
      { image := none, location := none, lens := none, dynamic := none,
        includeInteriors := none } (by rfl) (by rfl),
   (c7_route_errors_and_defaults.2.2 sampleServerEnv
      { name := "boat.jpg", type := "image/jpeg" }
      (buildPrompt "Local waterways" "wide-immersive" "running" false defaultAnalysis)
      (by decide)).1⟩

/-- C2: a request selecting lens action-zoom and dynamic harbor generates
with a prompt containing both fixed lexicon phrases verbatim and the
literal locale string the caller supplied; an id missing from a lexicon
resolves to that lexicon's default directive (wide-immersive / running). -/
theorem c2_prompt_lexicon_phrases :
    (∀ (env : ServerEnv) (form : FormFields) (p : String),
        form.lens = some "action-zoom" → form.dynamic = some "harbor" →
        ServerCall.generate p ∈ (postHandler env form).calls →
        StrContains p "high-speed telephoto capture, sweeping rooster tail, tack sharp hull detail"
        ∧ StrContains p "arrival sequence past iconic marina landmarks, soft dusk lighting, warm hospitality"
        ∧ ∀ loc, form.location = some loc → StrContains p loc)
    ∧ (∀ l, lensLexicon l = none →
        lensDirectiveFor l = "ultra-wide 18mm lens, low horizon, cinematic atmosphere, immersive scale")
    ∧ (∀ d, dynamicDirectives d = none →
        motionDirectiveFor d = "capture hull-on-plane, spray arcs, strong diagonal energy, sense of motion") := by
  refine ⟨?_, ?_, ?_⟩
  · intro env form p hlens hdyn hmem
    rw [postHandler_generate_prompt env form p hmem, hlens, hdyn]
    refine ⟨?_, ?_, ?_⟩
    · have h := buildPrompt_contains_lens (orDefault form.location "Local waterways")
        (orDefault (some "action-zoom") "wide-immersive") (orDefault (some "harbor") "running")
        (form.includeInteriors == some "true") (analyzeSourceImage env.parse env.analysisText)
      have heq : lensDirectiveFor (orDefault (some "action-zoom") "wide-immersive")
          = "high-speed telephoto capture, sweeping rooster tail, tack sharp hull detail" := by
        decide
      rwa [heq] at h
    · have h := buildPrompt_contains_dyn (orDefault form.location "Local waterways")
        (orDefault (some "action-zoom") "wide-immersive") (orDefault (some "harbor") "running")
        (form.includeInteriors == some "true") (analyzeSourceImage env.parse env.analysisText)
      have heq : motionDirectiveFor (orDefault (some "harbor") "running")
          = "arrival sequence past iconic marina landmarks, soft dusk lighting, warm hospitality" := by
        decide
      rwa [heq] at h
    · intro loc hloc
      rw [hloc]
      by_cases hempty : loc = ""
      · rw [hempty]
        exact strContains_empty _
      · have heq : orDefault (some loc) "Local waterways" = loc := by
          simp [orDefault, hempty]
        rw [heq]
        exact buildPrompt_contains_location loc _ _ _ _
  · intro l h
    simp only [lensDirectiveFor]
    rw [h]
    decide
  · intro d h
    simp only [motionDirectiveFor]
    rw [h]
    decide

set_option maxRecDepth 8192 in
theorem c2_prompt_lexicon_phrases_witness :
    StrContains
        (buildPrompt "Charleston Harbor, SC" "action-zoom" "harbor" true defaultAnalysis)
        "high-speed telephoto capture, sweeping rooster tail, tack sharp hull detail"
    ∧ StrContains
        (buildPrompt "Charleston Harbor, SC" "action-zoom" "harbor" true defaultAnalysis)
        "arrival sequence past iconic marina landmarks, soft dusk lighting, warm hospitality"
    ∧ StrContains
        (buildPrompt "Charleston Harbor, SC" "action-zoom" "harbor" true defaultAnalysis)
        "Charleston Harbor, SC" := by
  have h := c2_prompt_lexicon_phrases.1 sampleServerEnv sampleForm
    (buildPrompt "Charleston Harbor, SC" "action-zoom" "harbor" true defaultAnalysis)
    (by rfl) (by rfl) (by decide)
  exact ⟨h.1, h.2.1, h.2.2 "Charleston Harbor, SC" (by rfl)⟩

set_option maxRecDepth 8192 in
/-- C10: the interior-showcase sentence appears in the reinforcement
clause exactly when the includeInteriors form field is the literal string
true — any other value, including "True", "1" or an absent field, makes
the strict equality false and yields the exterior-only sentence — and
every generate call's prompt embeds the reinforcement clause derived from
that strict comparison. -/
theorem c10_interior_toggle :
    (∀ v : Option String,
        strContainsB (reinforcement (v == some "true")) interiorSentence = (v == some "true")
        ∧ strContainsB (reinforcement (v == some "true")) exteriorSentence = !(v == some "true"))
    ∧ (∀ (env : ServerEnv) (form : FormFields) (p : String),
        ServerCall.generate p ∈ (postHandler env form).calls →
        StrContains p (reinforcement (form.includeInteriors == some "true")))
    ∧ ((some "True" == some "true") = false
        ∧ (some "1" == some "true") = false
        ∧ ((none : Option String) == some "true") = false) := by
  refine ⟨?_, ?_, ?_⟩
  · intro v
    cases hb : v == some "true" with
    | false => exact ⟨by decide, by decide⟩
    | true => exact ⟨by decide, by decide⟩
  · intro env form p hmem
    rw [postHandler_generate_prompt env form p hmem]
    exact buildPrompt_contains_reinforcement _ _ _ _ _
  · exact ⟨by decide, by decide, by decide⟩

set_option maxRecDepth 8192 in
theorem c10_interior_toggle_witness :
    strContainsB (reinforcement ((some "true" : Option String) == some "true")) interiorSentence
        = ((some "true" : Option String) == some "true")
    ∧ strContainsB (reinforcement ((some "false" : Option String) == some "true")) exteriorSentence
        = !((some "false" : Option String) == some "true")
    ∧ StrContains
        (buildPrompt "Charleston Harbor, SC" "action-zoom" "harbor" true defaultAnalysis)
        (reinforcement (sampleForm.includeInteriors == some "true")) :=
  ⟨(c10_interior_toggle.1 (some "true")).1,
   (c10_interior_toggle.1 (some "false")).2,
   c10_interior_toggle.2.1 sampleServerEnv sampleForm
     (buildPrompt "Charleston Harbor, SC" "action-zoom" "harbor" true defaultAnalysis)
     (by decide)⟩

/-- The trace of a pass: one request/response pair per non-complete
snapshot item, in snapshot order, regardless of the store and of the
outcomes of earlier items. -/
theorem runPass_trace (fetchEnv : String → FetchOutcome) (params : StyleParams) :
    ∀ (snapshot store : List QueueItem),
    (runPass fetchEnv params snapshot store).2 =
      (snapshot.filter fun it => !(it.status == .complete)).flatMap
        fun it => [PassEvent.request it.id (clientFormData params it.file),
                   PassEvent.response it.id (fetchEnv it.id)] := by
  intro snapshot
  induction snapshot with
  | nil => intro store; simp [runPass]
  | cons it rest ih =>
    intro store
    by_cases h : (it.status == .complete) = true
    · simp [runPass, h, ih]
    · simp [runPass, h, ih]

/-- C3: the orchestrator is a no-op — state unchanged, no request issued —
while a pass is in flight or when no item is idle or ready; otherwise it
runs one pass whose trace is exactly one request immediately followed by
its response for each non-complete item of the queue, in queue order, so
requests never overlap, complete items are skipped, and one item's failed
round trip never prevents the later items' requests. -/
theorem c3_sequential_orchestration :
    (∀ (fetchEnv : String → FetchOutcome) (st : AppState),
        st.isProcessing = true → processQueue fetchEnv st = (st, []))
    ∧ (∀ (fetchEnv : String → FetchOutcome) (st : AppState),
        (∀ it ∈ st.queue, it.status ≠ .idle ∧ it.status ≠ .ready) →
        processQueue fetchEnv st = (st, []))
    ∧ (∀ (fetchEnv : String → FetchOutcome) (st : AppState),
        readyForProcessing st.queue = true → st.isProcessing = false →
        (processQueue fetchEnv st).2 =
          (st.queue.filter fun it => !(it.status == .complete)).flatMap
            fun it => [PassEvent.request it.id (clientFormData st.params it.file),
                       PassEvent.response it.id (fetchEnv it.id)]) := by
  refine ⟨?_, ?_, ?_⟩
  · intro fetchEnv st h
    simp [processQueue, h]
  · intro fetchEnv st h
    have hready : readyForProcessing st.queue = false := by
      rw [readyForProcessing]
      have hany : st.queue.any (fun item => item.status == .idle || item.status == .ready)
          = false := by
        simp only [List.any_eq_false]
        intro x hx
        have := h x hx
        simp [this.1, this.2]
      simp [hany]
    simp [processQueue, hready]
  · intro fetchEnv st hready hproc
    simp only [processQueue, hready, hproc, Bool.not_true, Bool.or_self]
    rw [if_neg (by simp)]
    exact runPass_trace fetchEnv st.params st.queue st.queue

theorem c3_sequential_orchestration_witness :
    processQueue sampleFetchEnv
        { queue := [sampleItem], isProcessing := true, params := sampleParams } =
      ({ queue := [sampleItem], isProcessing := true, params := sampleParams }, [])
    ∧ (processQueue sampleFetchEnv
        { queue := [sampleItem, sampleItem2], isProcessing := false, params := sampleParams }).2 =
      ([sampleItem, sampleItem2].filter fun it => !(it.status == .complete)).flatMap
        fun it => [PassEvent.request it.id (clientFormData sampleParams it.file),
                   PassEvent.response it.id (sampleFetchEnv it.id)] :=
  ⟨c3_sequential_orchestration.1 sampleFetchEnv
      { queue := [sampleItem], isProcessing := true, params := sampleParams } (by rfl),
   c3_sequential_orchestration.2.2 sampleFetchEnv
      { queue := [sampleItem, sampleItem2], isProcessing := false, params := sampleParams }
      (by decide) (by rfl)⟩

/-- C8 counterexample: with two ready items and a style-parameter source
that changes after the first item starts, the pass the code runs (all
requests built from the parameters captured when the pass began) differs
from the claimed per-item re-read behaviour: the second request still
carries the pass-start parameters, not the changed ones. -/
theorem c8_per_item_read_counterexample :
    (processQueue sampleFetchEnv
        { queue := [sampleItem, sampleItem2], isProcessing := false,
          params := (fun k => if k = 0 then sampleParams else sampleParams2) 0 }).2 ≠
      runPassPerItemRead sampleFetchEnv
        (fun k => if k = 0 then sampleParams else sampleParams2) 0
        [sampleItem, sampleItem2]
    ∧ (processQueue sampleFetchEnv
        { queue := [sampleItem, sampleItem2], isProcessing := false,
          params := (fun k => if k = 0 then sampleParams else sampleParams2) 0 }).2 =
      [PassEvent.request "a1" (clientFormData sampleParams sampleItem.file),
       PassEvent.response "a1" (sampleFetchEnv "a1"),
       PassEvent.request "a2" (clientFormData sampleParams sampleItem2.file),
       PassEvent.response "a2" (sampleFetchEnv "a2")]
    ∧ runPassPerItemRead sampleFetchEnv
        (fun k => if k = 0 then sampleParams else sampleParams2) 0
        [sampleItem, sampleItem2] =
      [PassEvent.request "a1" (clientFormData sampleParams sampleItem.file),
       PassEvent.response "a1" (sampleFetchEnv "a1"),
       PassEvent.request "a2" (clientFormData sampleParams2 sampleItem2.file),
       PassEvent.response "a2" (sampleFetchEnv "a2")] := by
  refine ⟨by decide, by decide, by decide⟩

/-- C8 amended: the style parameters are captured once, when the pass is
invoked; every request of the pass — also for items that start later — is
built from those captured parameters, so a change made while a pass is
running affects no item of the running pass, only later passes. -/
theorem c8_params_captured_at_pass_start :
    ∀ (fetchEnv : String → FetchOutcome) (st : AppState) (i : String) (f : FormFields),
      PassEvent.request i f ∈ (processQueue fetchEnv st).2 →
      ∃ fl : FileData, f = clientFormData st.params fl := by
  intro fetchEnv st i f hmem
  by_cases hg : (!readyForProcessing st.queue || st.isProcessing) = true
  · simp [processQueue, hg] at hmem
  · have hg' : (!readyForProcessing st.queue || st.isProcessing) = false := by
      simpa using hg
    simp only [processQueue, hg', Bool.false_eq_true, if_false] at hmem
    rw [runPass_trace] at hmem
    rcases List.mem_flatMap.mp hmem with ⟨it, _, hin⟩
    simp only [List.mem_cons, List.mem_singleton] at hin
    rcases hin with h1 | h2 | h3
    · exact ⟨it.file, (PassEvent.request.injEq _ _ _ _).mp h1 |>.2⟩
    · cases h2
    · cases h3

theorem c8_params_captured_at_pass_start_witness :
    ∃ fl : FileData,
      clientFormData sampleParams { name := "boat.jpg", type := "image/jpeg" } =
        clientFormData sampleParams fl :=
  c8_params_captured_at_pass_start sampleFetchEnv
    { queue := [sampleItem], isProcessing := false, params := sampleParams }
    "a1" (clientFormData sampleParams { name := "boat.jpg", type := "image/jpeg" })
    (by decide)

/-- With pairwise-distinct ids, looking an item up by its own id finds it. -/
theorem getById_self (q : List QueueItem) (hnd : (q.map QueueItem.id).Nodup) :
    ∀ s ∈ q, getById q s.id = some s := by
  induction q with
  | nil => intro s hs; cases hs
  | cons x xs ih =>
    intro s hs
    rcases List.mem_cons.mp hs with rfl | htail
    · simp [getById, List.find?]
    · have hx : (x.id == s.id) = false := by
        have hnotin : x.id ∉ xs.map QueueItem.id := (List.nodup_cons.mp (by simpa using hnd)).1
        have : s.id ∈ xs.map QueueItem.id := List.mem_map_of_mem _ htail
        exact beq_eq_false_iff_ne.mpr fun he => hnotin (he ▸ this)
      have hnd' : (xs.map QueueItem.id).Nodup := (List.nodup_cons.mp (by simpa using hnd)).2
      simp only [getById, List.find?, hx]
      exact ih hnd' s htail

/-- With pairwise-distinct ids, an id lookup pins down the item. -/
theorem getById_unique : ∀ (q : List QueueItem), (q.map QueueItem.id).Nodup →
    ∀ (i : String) (z : QueueItem), getById q i = some z →
    ∀ y ∈ q, y.id = i → y = z := by
  intro q
  induction q with
  | nil =>
    intro _ i z _ y hy
    cases hy
  | cons x xs ih =>
    intro hnd i z hz y hy hyi
    have hnotin : x.id ∉ xs.map QueueItem.id := (List.nodup_cons.mp (by simpa using hnd)).1
    have hnd' : (xs.map QueueItem.id).Nodup := (List.nodup_cons.mp (by simpa using hnd)).2
    rcases List.mem_cons.mp hy with rfl | htail
    · have hx : (y.id == i) = true := by simp [hyi]
      simp only [getById, List.find?, hx] at hz
      exact (Option.some.injEq _ _).mp hz
    · by_cases hx : (x.id == i) = true
      · exfalso
        have hxi : x.id = i := by simpa using hx
        have hmem : y.id ∈ xs.map QueueItem.id := List.mem_map_of_mem _ htail
        rw [hyi, ← hxi] at hmem
        exact hnotin hmem
      · have hx' : (x.id == i) = false := by simpa using hx
        simp only [getById, List.find?, hx'] at hz
        exact ih hnd' i z hz y htail hyi

/-- The per-item step keeps the stores id list. -/
theorem stepMap_ids (it : QueueItem) (o : FetchOutcome) (store : List QueueItem) :
    ((store.map fun x => if x.id == it.id then afterItem o x else x).map QueueItem.id)
      = store.map QueueItem.id := by
  rw [List.map_map]
  apply List.map_congr_left
  intro x _
  by_cases h : (x.id == it.id) = true
  · simp [Function.comp, h, afterItem_id]
  · simp [Function.comp, h]

/-- The per-item step leaves lookups of other ids unchanged. -/
theorem getById_stepMap_ne (it : QueueItem) (o : FetchOutcome) (store : List QueueItem)
    (j : String) (hne : j ≠ it.id) :
    getById (store.map fun x => if x.id == it.id then afterItem o x else x) j
      = getById store j := by
  rw [getById, List.find?_map]
  have hcomp : ((fun x : QueueItem => x.id == j) ∘
      fun x => if x.id == it.id then afterItem o x else x) = fun x : QueueItem => x.id == j := by
    funext x
    by_cases h : (x.id == it.id) = true
    · simp [Function.comp, h, afterItem_id]
    · simp [Function.comp, h]
  rw [hcomp]
  cases hfind : List.find? (fun x : QueueItem => x.id == j) store with
  | none => simp [getById, hfind]
  | some s =>
    have hs := List.find?_some hfind
    have hsne : (s.id == it.id) = false := by
      have : s.id = j := by simpa using hs
      exact beq_eq_false_iff_ne.mpr (this ▸ hne)
    simp [getById, hfind, hsne]
    intro he
    simp [he] at hsne

/-- After one step, an item that had no result carries one exactly when it completed. -/
theorem afterItem_result_iff (o : FetchOutcome) (x : QueueItem) (hx : x.result = none) :
    ((afterItem o x).result.isSome ↔ (afterItem o x).status = .complete) := by
  cases o <;> simp [afterItem, hx]

/-- One orchestrator step preserves the store invariant. -/
theorem step_invariant (it : QueueItem) (o : FetchOutcome) (store : List QueueItem)
    (hni : it.status ≠ .complete) (hinv : queueInvariant store)
    (hfind : getById store it.id = some it) :
    queueInvariant (stepItem it o store) := by
  rw [stepItem_eq_map]
  constructor
  · rw [stepMap_ids]
    exact hinv.1
  · intro y hy
    rcases List.mem_map.mp hy with ⟨x, hx, rfl⟩
    by_cases h : (x.id == it.id) = true
    · rw [if_pos h]
      have hxit : x = it := getById_unique store hinv.1 it.id it hfind x hx (by simpa using h)
      subst hxit
      have hres : x.result = none := by
        have hiff := hinv.2 x hx
        cases hr : x.result with
        | none => rfl
        | some r =>
          exfalso
          exact hni (hiff.mp (by simp [hr]))
      exact afterItem_result_iff o x hres
    · rw [if_neg (by simpa using h)]
      exact hinv.2 x hx

/-- A whole pass preserves the store invariant. -/
theorem runPass_invariant (fetchEnv : String → FetchOutcome) (params : StyleParams) :
    ∀ (snapshot store : List QueueItem),
    (snapshot.map QueueItem.id).Nodup →
    (∀ s ∈ snapshot, getById store s.id = some s) →
    queueInvariant store →
    queueInvariant (runPass fetchEnv params snapshot store).1 := by
  intro snapshot
  induction snapshot with
  | nil =>
    intro store _ _ hinv
    simpa [runPass] using hinv
  | cons it rest ih =>
    intro store hnd hfind hinv
    have hnotin : it.id ∉ rest.map QueueItem.id := (List.nodup_cons.mp (by simpa using hnd)).1
    have hnd' : (rest.map QueueItem.id).Nodup := (List.nodup_cons.mp (by simpa using hnd)).2
    by_cases hc : (it.status == .complete) = true
    · rw [runPass, if_pos hc]
      exact ih store hnd' (fun s hs => hfind s (List.mem_cons_of_mem _ hs)) hinv
    · rw [runPass, if_neg (by simpa using hc)]
      apply ih
      · exact hnd'
      · intro s hs
        have hsne : s.id ≠ it.id := by
          intro he
          exact hnotin (he ▸ List.mem_map_of_mem _ hs)
        rw [stepItem_eq_map, getById_stepMap_ne it _ store s.id hsne]
        exact hfind s (List.mem_cons_of_mem _ hs)
      · exact step_invariant it _ store (by simpa using hc) hinv
          (hfind it (List.mem_cons_self _ _))

/-- The first components of a zip form a sublist of the left list. -/
theorem zip_map_fst_sublist (ids : List String) (fl : List FileData) :
    ((ids.zip fl).map Prod.fst).Sublist ids := by
  induction ids generalizing fl with
  | nil => simp
  | cons x xs ih =>
    cases fl with
    | nil => simp
    | cons y ys => simpa using List.Sublist.cons₂ x (ih ys)

/-- Intake with fresh ids preserves the store invariant. -/
theorem handleFiles_invariant (files : List FileData) (ids : List String)
    (q : List QueueItem) (hq : queueInvariant q) (hnd : ids.Nodup)
    (hfresh : ∀ i ∈ ids, ∀ it ∈ q, it.id ≠ i) :
    queueInvariant (handleFiles files ids q) := by
  have hnewids : ((ids.zip (files.filter fun f => supportedTypes.contains f.type)).map
      (fun p => mkQueueItem p.1 p.2)).map QueueItem.id
      = (ids.zip (files.filter fun f => supportedTypes.contains f.type)).map Prod.fst := by
    rw [List.map_map]
    apply List.map_congr_left
    intro p _
    rfl
  have hsub : ((ids.zip (files.filter fun f => supportedTypes.contains f.type)).map
      Prod.fst).Sublist ids :=
    zip_map_fst_sublist ids _
  constructor
  · rw [handleFiles, List.map_append, hnewids]
    apply List.Nodup.append hq.1 (hsub.nodup hnd)
    intro a ha hb
    have hain : a ∈ ids := hsub.mem hb
    rcases List.mem_map.mp ha with ⟨it, hit, rfl⟩
    exact hfresh it.id hain it hit rfl
  · intro it hit
    rw [handleFiles] at hit
    rcases List.mem_append.mp hit with hl | hr
    · exact hq.2 it hl
    · rcases List.mem_map.mp hr with ⟨p, _, rfl⟩
      simp [mkQueueItem]

/-- Removal preserves the store invariant. -/
theorem removeItem_invariant (i : String) (q : List QueueItem)
    (hq : queueInvariant q) : queueInvariant (removeItem i q) := by
  constructor
  · have hsub : (removeItem i q).Sublist q := List.filter_sublist q
    exact (hsub.map QueueItem.id).nodup hq.1
  · intro it hit
    exact hq.2 it (List.mem_of_mem_filter hit)

/-- Every reachable queue store satisfies the invariant. -/
theorem reachable_invariant (q : List QueueItem) (h : Reachable q) :
    queueInvariant q := by
  induction h with
  | init => exact ⟨by simp, by simp⟩
  | intake q files ids _ hnd hfresh ih => exact handleFiles_invariant files ids q ih hnd hfresh
  | remove q i _ ih => exact removeItem_invariant i q ih
  | pass q fetchEnv b params _ ih =>
    by_cases hg : (!readyForProcessing q || b) = true
    · simpa [processQueue, hg] using ih
    · have hg' : (!readyForProcessing q || b) = false := by simpa using hg
      simp only [processQueue, hg', Bool.false_eq_true, if_false]
      exact runPass_invariant fetchEnv params q q ih.1 (getById_self q ih.1) ih

/-- C4: in every reachable queue store, an item carries a ProcessedResult
if and only if its status is complete; in particular an item in status
error carries no result, and no item is in both terminal states at once. -/
theorem c4_result_iff_complete :
    ∀ (q : List QueueItem), Reachable q →
      (∀ it ∈ q, (it.result.isSome = true ↔ it.status = .complete))
      ∧ (∀ it ∈ q, it.status = .error → it.result = none)
      ∧ (∀ it ∈ q, ¬(it.status = .error ∧ it.status = .complete)) := by
  intro q h
  have hinv := reachable_invariant q h
  refine ⟨fun it hit => hinv.2 it hit, ?_, ?_⟩
  · intro it hit herr
    cases hr : it.result with
    | none => rfl
    | some r =>
      exfalso
      have hc : it.status = .complete := (hinv.2 it hit).mp (by simp [hr])
      rw [herr] at hc
      cases hc
  · intro it _ hand
    rw [hand.1] at hand
    cases hand.2

theorem c4_result_iff_complete_witness :
    (mkQueueItem "a1" { name := "boat.jpg", type := "image/jpeg" }).result.isSome = true
      ↔ (mkQueueItem "a1" { name := "boat.jpg", type := "image/jpeg" }).status
          = ProcessingStatus.complete :=
  (c4_result_iff_complete
      (handleFiles [{ name := "boat.jpg", type := "image/jpeg" }] ["a1"] [])
      (Reachable.intake [] [{ name := "boat.jpg", type := "image/jpeg" }] ["a1"]
        Reachable.init (by decide) (by simp))).1
    (mkQueueItem "a1" { name := "boat.jpg", type := "image/jpeg" }) (by decide)
